import Mathlib

/-!
# Verification of the drive-sim dynamics core (`src/dynamics.rs`)

Shallow embedding of the fixed-timestep differential-drive robot simulator.
Scalars are modelled as exact rationals (`ℚ`); the Rust source uses `f64`
wrapped in compile-time dimension tags, which carry no runtime content, so a
dimension tag is erased and every quantity is a plain scalar.  Methods taking
`&mut self` are translated in state-passing style: they return the updated
structure together with the Rust return value.  Methods taking `&self` are
translated as pure functions of the structure (and, where the frame property
itself is at stake, additionally in state-passing style returning the
unchanged receiver, which is the faithful translation of a shared borrow
whose body only reads).
-/

/-- `Integrator<U>` from dynamics.rs lines 9-36: fixed `dt` plus an
accumulator `acc`. -/
structure Integrator where
  dt : ℚ
  acc : ℚ
  deriving Repr, DecidableEq

/-- `Integrator::new(dt, initial)` (line 24). -/
def Integrator.new (dt : ℚ) (initial : ℚ) : Integrator :=
  { dt := dt, acc := initial }

/-- `Integrator::get` (line 28): returns the accumulator, `&self` receiver. -/
def Integrator.get (i : Integrator) : ℚ := i.acc

/-- `Integrator::add` (line 32): `self.acc += val * self.dt; self.get()`.
Returns the updated integrator and the Rust return value. -/
def Integrator.add (i : Integrator) (val : ℚ) : Integrator × ℚ :=
  let i2 : Integrator := { i with acc := i.acc + val * i.dt }
  (i2, i2.get)

/-- Iterating `add` with a constant rate `r`, `n` times (used by the spec's
constant-rate property for the integrator). -/
def Integrator.addN (i : Integrator) (r : ℚ) : Nat → Integrator
  | 0 => i
  | n + 1 => ((i.addN r n).add r).1

/-- `Differentiator<U>` from dynamics.rs lines 46-79: fixed `dt` plus the
last two samples (`last`, `two`). -/
structure Differentiator where
  dt : ℚ
  last : ℚ
  two : ℚ
  deriving Repr, DecidableEq

/-- `Differentiator::new(dt, initial)` (line 62): both history slots seeded
with `initial`. -/
def Differentiator.new (dt : ℚ) (initial : ℚ) : Differentiator :=
  { dt := dt, last := initial, two := initial }

/-- `Differentiator::get` (line 70): `(last - two) / dt`, `&self` receiver. -/
def Differentiator.get (d : Differentiator) : ℚ := (d.last - d.two) / d.dt

/-- `Differentiator::add` (line 74): `two ← last; last ← val; self.get()`.
Returns the updated differentiator and the Rust return value. -/
def Differentiator.add (d : Differentiator) (val : ℚ) : Differentiator × ℚ :=
  let d2 : Differentiator := { d with two := d.last, last := val }
  (d2, d2.get)

/-- `DDMRParams` (dynamics.rs lines 99-115). -/
structure DDMRParams where
  /-- wheel radius -/
  R : ℚ
  /-- total mass of the robot including wheels and actuators -/
  m : ℚ
  /-- mass of the robot without wheels and actuators -/
  mc : ℚ
  /-- distance of the center of mass behind the wheel axis -/
  d : ℚ
  /-- half the wheel base -/
  L : ℚ
  /-- moment of inertia of the robot about its center of rotation -/
  I : ℚ
  /-- moment of inertia of each wheel about the wheel axis -/
  Iw : ℚ
  deriving Repr, DecidableEq

/-- `DCMotorParams` (dynamics.rs lines 117-129). -/
structure DCMotorParams where
  /-- armature resistance -/
  Ra : ℚ
  /-- armature inductance -/
  La : ℚ
  /-- gear ratio -/
  N : ℚ
  /-- back-EMF constant -/
  Kb : ℚ
  /-- torque constant -/
  Kt : ℚ
  deriving Repr, DecidableEq

/-- `Vels` (dynamics.rs lines 131-136): linear and angular velocity. -/
structure Vels where
  lin : ℚ
  ang : ℚ
  deriving Repr, DecidableEq

/-- `LR<T>` (dynamics.rs lines 147-151): a left/right pair. -/
structure LR (T : Type) where
  l : T
  r : T
  deriving Repr, DecidableEq

/-- `DDMRModel` (dynamics.rs lines 157-161): parameters plus one integrator
for linear velocity and one for angular velocity. -/
structure DDMRModel where
  p : DDMRParams
  linv : Integrator
  angv : Integrator
  deriving Repr, DecidableEq

/-- `DDMRModel::new(dt, param)` (lines 164-170): both velocity integrators
seeded with zero. -/
def DDMRModel.new (dt : ℚ) (param : DDMRParams) : DDMRModel :=
  { p := param, linv := Integrator.new dt 0, angv := Integrator.new dt 0 }

/-- `DDMRModel::vel` (lines 172-177), `&self` receiver. -/
def DDMRModel.vel (md : DDMRModel) : Vels :=
  { lin := md.linv.get, ang := md.angv.get }

/-- The linear-acceleration expression of `DDMRModel::observe`
(lines 182-184), as a function of the pre-update state:
`((tau.r + tau.l) / R + mc * d * ω * ω) / (m + 2 * Iw / R / R)`
with `ω` read from the angular-velocity integrator. -/
def DDMRModel.vdot (md : DDMRModel) (tau : LR ℚ) : ℚ :=
  ((tau.r + tau.l) / md.p.R + md.p.mc * md.p.d * md.angv.get * md.angv.get)
    / (md.p.m + 2 * md.p.Iw / md.p.R / md.p.R)

/-- The angular-acceleration expression of `DDMRModel::observe`
(lines 185-187), as a function of the pre-update state:
`((tau.r - tau.l) * L / R - mc * d * ω * v) / (I + 2 * L * L * Iw / R / R)`
with `ω`, `v` read from the integrators. -/
def DDMRModel.wdot (md : DDMRModel) (tau : LR ℚ) : ℚ :=
  ((tau.r - tau.l) * md.p.L / md.p.R - md.p.mc * md.p.d * md.angv.get * md.linv.get)
    / (md.p.I + 2 * md.p.L * md.p.L * md.p.Iw / md.p.R / md.p.R)

/-- `DDMRModel::observe(tau)` (lines 180-193): compute both accelerations
from the pre-update integrator state, then integrate each forward and return
the post-update pair.  `vdot`/`wdot` name the exact subexpressions bound to
the local variables `vdot`/`wdot` in the source. -/
def DDMRModel.observe (md : DDMRModel) (tau : LR ℚ) : DDMRModel × Vels :=
  let vd := md.vdot tau
  let wd := md.wdot tau
  let lres := md.linv.add vd
  let ares := md.angv.add wd
  ({ md with linv := lres.1, angv := ares.1 }, { lin := lres.2, ang := ares.2 })

/-- `DDMRModel::vels_to_wheel(v)` (lines 195-200), `&self` receiver:
`left = (lin - L*ang)/R`, `right = (lin + L*ang)/R`. -/
def DDMRModel.vels_to_wheel (md : DDMRModel) (v : Vels) : LR ℚ :=
  { l := (v.lin - md.p.L * v.ang) / md.p.R
    r := (v.lin + md.p.L * v.ang) / md.p.R }

/-- `DDMRModel::wheels` (lines 202-204), `&self` receiver. -/
def DDMRModel.wheels (md : DDMRModel) : LR ℚ :=
  md.vels_to_wheel md.vel

/-- State-passing translation of the `&self` method `DDMRModel::vel`: a
shared borrow whose body only reads returns its result together with the
receiver it leaves behind, which is the receiver it was given. -/
def DDMRModel.velCall (md : DDMRModel) : Vels × DDMRModel :=
  (md.vel, md)

/-- State-passing translation of the `&self` method `DDMRModel::wheels`. -/
def DDMRModel.wheelsCall (md : DDMRModel) : LR ℚ × DDMRModel :=
  (md.wheels, md)

/-- `ActuatedDDMRModel` (dynamics.rs lines 207-211). -/
structure ActuatedDDMRModel where
  ddmr : DDMRModel
  p : DCMotorParams
  di : LR Differentiator
  deriving Repr, DecidableEq

/-- `ActuatedDDMRModel::new(dt, ddmr_par, params)` (lines 214-223): both
current differentiators seeded with zero amperes. -/
def ActuatedDDMRModel.new (dt : ℚ) (ddmr_par : DDMRParams)
    (params : DCMotorParams) : ActuatedDDMRModel :=
  { ddmr := DDMRModel.new dt ddmr_par
    p := params
    di := { l := Differentiator.new dt 0, r := Differentiator.new dt 0 } }

/-- The armature-current pair computed by `ActuatedDDMRModel::observe`
(lines 227-229) from the pre-call state: for each side,
`(v - Kb * N * phidot - La * di.get) / Ra` where `phidot` is that side's
wheel rate of the not-yet-updated drivetrain and `di.get` reads that side's
not-yet-advanced differentiator. -/
def ActuatedDDMRModel.currents (am : ActuatedDDMRModel) (v : LR ℚ) : LR ℚ :=
  { l := (v.l - am.p.Kb * am.p.N * am.ddmr.wheels.l - am.p.La * am.di.l.get) / am.p.Ra
    r := (v.r - am.p.Kb * am.p.N * am.ddmr.wheels.r - am.p.La * am.di.r.get) / am.p.Ra }

/-- `ActuatedDDMRModel::observe(v)` (lines 225-236): compute both currents
from pre-call state (`currents` names the exact subexpressions bound to the
locals `ial`/`iar`), advance both differentiators with them, convert each
current to torque via `Kt`, and step the owned drivetrain. -/
def ActuatedDDMRModel.observe (am : ActuatedDDMRModel) (v : LR ℚ) :
    ActuatedDDMRModel × Vels :=
  let ia := am.currents v
  let dl := am.di.l.add ia.l
  let dr := am.di.r.add ia.r
  let step := am.ddmr.observe { l := ia.l * am.p.Kt, r := ia.r * am.p.Kt }
  ({ ddmr := step.1, p := am.p, di := { l := dl.1, r := dr.1 } }, step.2)

/-- `n` repeated `observe` calls with a fixed voltage pair. -/
def ActuatedDDMRModel.steps (am : ActuatedDDMRModel) (v : LR ℚ) :
    Nat → ActuatedDDMRModel
  | 0 => am
  | n + 1 => ((am.steps v n).observe v).1

/-- The all-zero voltage pair. -/
def zeroLR : LR ℚ := { l := 0, r := 0 }

/-! ## Helper lemmas -/

/-- `addN` never changes the timestep. -/
theorem Integrator.addN_dt (i : Integrator) (r : ℚ) (n : Nat) :
    (i.addN r n).dt = i.dt := by
  induction n with
  | zero => rfl
  | succ k ih => simp [Integrator.addN, Integrator.add, ih]

/-- Accumulator after `n` constant-rate `add` calls from a zero-initialised
integrator. -/
theorem Integrator.addN_acc (dt r : ℚ) (n : Nat) :
    ((Integrator.new dt 0).addN r n).acc = n * r * dt := by
  induction n with
  | zero => simp [Integrator.addN, Integrator.new]
  | succ k ih =>
      have hdt2 : ((Integrator.new dt 0).addN r k).dt = dt :=
        Integrator.addN_dt (Integrator.new dt 0) r k
      simp only [Integrator.addN, Integrator.add, Integrator.get]
      rw [ih, hdt2]
      push_cast
      ring

/-! ## Claim theorems -/

/-- C1: `DDMRModel::observe(tau)` computes
`v̇ = ((τ_r + τ_l)/R + mc·d·ω²) / (m + 2·Iw/R²)` and
`ω̇ = ((τ_r − τ_l)·L/R − mc·d·ω·v) / (I + 2·L²·Iw/R²)` with both `v` and `ω`
read from the integrators before this call updates anything, then integrates
each acceleration forward with its own integrator's fixed `dt`; the returned
`Vels` is the post-update pair, equal to the new integrator values. -/
theorem DDMRModel.observe_spec (md : DDMRModel) (tau : LR ℚ) :
    md.vdot tau
        = ((tau.r + tau.l) / md.p.R + md.p.mc * md.p.d * md.angv.get ^ 2)
            / (md.p.m + 2 * md.p.Iw / md.p.R ^ 2)
      ∧ md.wdot tau
        = ((tau.r - tau.l) * md.p.L / md.p.R
              - md.p.mc * md.p.d * md.angv.get * md.linv.get)
            / (md.p.I + 2 * md.p.L ^ 2 * md.p.Iw / md.p.R ^ 2)
      ∧ (md.observe tau).2.lin = md.linv.get + md.vdot tau * md.linv.dt
      ∧ (md.observe tau).2.ang = md.angv.get + md.wdot tau * md.angv.dt
      ∧ (md.observe tau).1.linv.acc = (md.observe tau).2.lin
      ∧ (md.observe tau).1.angv.acc = (md.observe tau).2.ang
      ∧ (md.observe tau).1.linv.dt = md.linv.dt
      ∧ (md.observe tau).1.angv.dt = md.angv.dt
      ∧ (md.observe tau).1.p = md.p := by
  refine ⟨?_, ?_, rfl, rfl, rfl, rfl, rfl, rfl, rfl⟩
  · unfold DDMRModel.vdot
    ring
  · unfold DDMRModel.wdot
    ring

/-- C2: `ActuatedDDMRModel::observe(v)` computes each side's current as
`(v − Kb·N·ϕ̇ − La·(di/dt)) / Ra` with `ϕ̇` the wheel rate of the
not-yet-updated drivetrain and `di/dt` read from that side's not-yet-advanced
differentiator; both differentiators are then advanced with the computed
currents, each current becomes torque `i·Kt`, the torque pair is passed to
the owned `DDMRModel::observe`, and that call's `Vels` is returned. -/
theorem ActuatedDDMRModel.observe_ordering (am : ActuatedDDMRModel) (v : LR ℚ) :
    (am.currents v).l
        = (v.l - am.p.Kb * am.p.N * am.ddmr.wheels.l
            - am.p.La * am.di.l.get) / am.p.Ra
      ∧ (am.currents v).r
        = (v.r - am.p.Kb * am.p.N * am.ddmr.wheels.r
            - am.p.La * am.di.r.get) / am.p.Ra
      ∧ (am.observe v).1.di.l = (am.di.l.add (am.currents v).l).1
      ∧ (am.observe v).1.di.r = (am.di.r.add (am.currents v).r).1
      ∧ (am.observe v).1.ddmr
        = (am.ddmr.observe
            { l := (am.currents v).l * am.p.Kt
              r := (am.currents v).r * am.p.Kt }).1
      ∧ (am.observe v).2
        = (am.ddmr.observe
            { l := (am.currents v).l * am.p.Kt
              r := (am.currents v).r * am.p.Kt }).2
      ∧ (am.observe v).1.p = am.p := by
  exact ⟨rfl, rfl, rfl, rfl, rfl, rfl, rfl⟩

/-- C5: `Integrator::add(rate)` sets the accumulator to its previous value
plus `rate·dt` and returns the updated accumulator; `get` reads the
accumulator without changing anything; with zero initial value, `n`
constant-rate adds accumulate `n·r·dt`; concretely, `dt = 1/200`, initial 0,
`add 1` then `add 1/20` gives `get = 21/4000 = 0.00525`. -/
theorem Integrator.behaviour (i : Integrator) (val r : ℚ) (n : Nat) :
    i.get = i.acc
      ∧ (i.add val).1 = { dt := i.dt, acc := i.acc + val * i.dt }
      ∧ (i.add val).2 = i.acc + val * i.dt
      ∧ ((Integrator.new i.dt 0).addN r n).acc = n * r * i.dt
      ∧ ((Integrator.new i.dt 0).addN r n).dt = i.dt
      ∧ ((((Integrator.new (1/200) 0).add 1).1.add (1/20)).1).get = 21/4000 := by
  refine ⟨rfl, rfl, rfl, Integrator.addN_acc i.dt r n, ?_,
    by norm_num [Integrator.new, Integrator.add, Integrator.get]⟩
  simpa using Integrator.addN_dt (Integrator.new i.dt 0) r n

/-- C6: a freshly constructed `Differentiator` has both history slots seeded
with the initial sample, so `get` before any `add` is exactly zero; `get`
always returns `(last − two_ago)/dt`; `add val` shifts `two ← last`,
`last ← val` and returns the subsequent `get`, so `add v1` then `add v2`
estimates `(v2 − v1)/dt`; concretely `dt = 1/200`, `add 1` then `add 6/5`
gives `40`. -/
theorem Differentiator.finite_difference (dt initial v1 v2 : ℚ) (d : Differentiator)
    (hdt : dt ≠ 0) :
    (Differentiator.new dt initial).get = 0
      ∧ d.get = (d.last - d.two) / d.dt
      ∧ (d.add v1).1 = { dt := d.dt, last := v1, two := d.last }
      ∧ (d.add v1).2 = (d.add v1).1.get
      ∧ ((((Differentiator.new dt initial).add v1).1.add v2).1).get
          = (v2 - v1) / dt
      ∧ ((((Differentiator.new (1/200) 0).add 1).1.add (6/5)).1).get = 40 := by
  refine ⟨?_, rfl, rfl, rfl, rfl,
    by norm_num [Differentiator.new, Differentiator.add, Differentiator.get]⟩
  simp [Differentiator.new, Differentiator.get]

/-- C6 witness: the theorem instantiated at `dt = 1/200`, `initial = 0`,
`v1 = 1`, `v2 = 6/5`, with an arbitrary concrete differentiator. -/
theorem Differentiator.finite_difference_witness :
    (1/200 : ℚ) ≠ 0
      ∧ ((Differentiator.new (1/200) 0).get = 0
          ∧ (Differentiator.mk 1 2 3).get
              = ((Differentiator.mk 1 2 3).last - (Differentiator.mk 1 2 3).two)
                  / (Differentiator.mk 1 2 3).dt
          ∧ ((Differentiator.mk 1 2 3).add 1).1
              = { dt := (Differentiator.mk 1 2 3).dt, last := 1
                  two := (Differentiator.mk 1 2 3).last }
          ∧ ((Differentiator.mk 1 2 3).add 1).2
              = ((Differentiator.mk 1 2 3).add 1).1.get
          ∧ ((((Differentiator.new (1/200) 0).add 1).1.add (6/5)).1).get
              = (6/5 - 1) / (1/200)
          ∧ ((((Differentiator.new (1/200) 0).add 1).1.add (6/5)).1).get = 40) :=
  ⟨by norm_num, Differentiator.finite_difference (1/200) 0 1 (6/5)
      (Differentiator.mk 1 2 3) (by norm_num)⟩

/-- C10: `DDMRModel::new` seeds both velocity integrators with zero, so a
fresh model's `vel` is zero; `ActuatedDDMRModel::new` additionally seeds both
current differentiators with zero, so the first step's `La·(di/dt)` term is
exactly zero; neither constructor takes any initial velocity or current. -/
theorem fresh_models_at_rest (dt : ℚ) (dp : DDMRParams) (mp : DCMotorParams) :
    (DDMRModel.new dt dp).vel = { lin := 0, ang := 0 }
      ∧ (DDMRModel.new dt dp).linv = Integrator.new dt 0
      ∧ (DDMRModel.new dt dp).angv = Integrator.new dt 0
      ∧ (ActuatedDDMRModel.new dt dp mp).ddmr = DDMRModel.new dt dp
      ∧ (ActuatedDDMRModel.new dt dp mp).di.l = Differentiator.new dt 0
      ∧ (ActuatedDDMRModel.new dt dp mp).di.r = Differentiator.new dt 0
      ∧ (ActuatedDDMRModel.new dt dp mp).di.l.get = 0
      ∧ (ActuatedDDMRModel.new dt dp mp).di.r.get = 0
      ∧ mp.La * (ActuatedDDMRModel.new dt dp mp).di.l.get = 0
      ∧ mp.La * (ActuatedDDMRModel.new dt dp mp).di.r.get = 0 := by
  refine ⟨rfl, rfl, rfl, rfl, rfl, rfl, ?_, ?_, ?_, ?_⟩ <;>
    simp [ActuatedDDMRModel.new, Differentiator.new, Differentiator.get]

/-- State-passing translation of the `&self` method
`DDMRModel::vels_to_wheel`. -/
def DDMRModel.vels_to_wheelCall (md : DDMRModel) (v : Vels) :
    LR ℚ × DDMRModel :=
  (md.vels_to_wheel v, md)

/-- C4: `vels_to_wheel` returns `left = (lin − L·ang)/R`,
`right = (lin + L·ang)/R`; reconstructing `R·(r+l)/2` and `R·(r−l)/(2L)`
recovers `lin` and `ang` exactly when `R ≠ 0` and `L ≠ 0`; the mapping is
pure and stateless: it leaves the model unchanged and its result depends
only on the argument and the parameters `R`, `L`. -/
theorem DDMRModel.vels_to_wheel_roundtrip (md : DDMRModel) (v : Vels)
    (hR : md.p.R ≠ 0) (hL : md.p.L ≠ 0) :
    (md.vels_to_wheel v).l = (v.lin - md.p.L * v.ang) / md.p.R
      ∧ (md.vels_to_wheel v).r = (v.lin + md.p.L * v.ang) / md.p.R
      ∧ md.p.R * ((md.vels_to_wheel v).r + (md.vels_to_wheel v).l) / 2 = v.lin
      ∧ md.p.R * ((md.vels_to_wheel v).r - (md.vels_to_wheel v).l)
          / (2 * md.p.L) = v.ang
      ∧ (md.vels_to_wheelCall v).2 = md
      ∧ (∀ md2 : DDMRModel, md2.p.R = md.p.R → md2.p.L = md.p.L →
          md2.vels_to_wheel v = md.vels_to_wheel v) := by
  refine ⟨rfl, rfl, ?_, ?_, rfl, ?_⟩
  · simp only [DDMRModel.vels_to_wheel]
    field_simp
  · simp only [DDMRModel.vels_to_wheel]
    field_simp
    ring
  · intro md2 h1 h2
    simp [DDMRModel.vels_to_wheel, h1, h2]

/-- A concrete model used to instantiate hypotheses of the kinematics
round-trip. -/
def M4 : DDMRModel :=
  { p := { R := 2, m := 1, mc := 1, d := 1, L := 3, I := 1, Iw := 1 }
    linv := Integrator.new 1 0
    angv := Integrator.new 1 0 }

/-- C4 witness: round-trip at `R = 2`, `L = 3`, `Vels{lin = 5, ang = 7}`. -/
theorem DDMRModel.vels_to_wheel_roundtrip_witness :
    M4.p.R ≠ 0 ∧ M4.p.L ≠ 0
      ∧ ((M4.vels_to_wheel ⟨5, 7⟩).l = ((5 : ℚ) - M4.p.L * 7) / M4.p.R
        ∧ (M4.vels_to_wheel ⟨5, 7⟩).r = ((5 : ℚ) + M4.p.L * 7) / M4.p.R
        ∧ M4.p.R * ((M4.vels_to_wheel ⟨5, 7⟩).r + (M4.vels_to_wheel ⟨5, 7⟩).l)
            / 2 = (5 : ℚ)
        ∧ M4.p.R * ((M4.vels_to_wheel ⟨5, 7⟩).r - (M4.vels_to_wheel ⟨5, 7⟩).l)
            / (2 * M4.p.L) = (7 : ℚ)
        ∧ (M4.vels_to_wheelCall ⟨5, 7⟩).2 = M4
        ∧ (∀ md2 : DDMRModel, md2.p.R = M4.p.R → md2.p.L = M4.p.L →
            md2.vels_to_wheel ⟨5, 7⟩ = M4.vels_to_wheel ⟨5, 7⟩)) :=
  ⟨by norm_num [M4], by norm_num [M4],
    DDMRModel.vels_to_wheel_roundtrip M4 ⟨5, 7⟩
      (by norm_num [M4]) (by norm_num [M4])⟩

/-- C7: when `mc·d = 0` the two channels of `observe` are decoupled: for
models with the same parameters, equal linear-velocity integrators and
arbitrary angular velocities give the same linear acceleration and the same
updated linear velocity; symmetrically, equal angular-velocity integrators
and arbitrary linear velocities give the same angular acceleration and the
same updated angular velocity. -/
theorem DDMRModel.decoupled_channels (m1 m2 : DDMRModel) (tau : LR ℚ)
    (hp : m1.p = m2.p) (hcd : m1.p.mc * m1.p.d = 0) :
    (m1.linv = m2.linv →
        m1.vdot tau = m2.vdot tau
          ∧ (m1.observe tau).2.lin = (m2.observe tau).2.lin
          ∧ (m1.observe tau).1.linv = (m2.observe tau).1.linv)
      ∧ (m1.angv = m2.angv →
          m1.wdot tau = m2.wdot tau
            ∧ (m1.observe tau).2.ang = (m2.observe tau).2.ang
            ∧ (m1.observe tau).1.angv = (m2.observe tau).1.angv) := by
  have hcd2 : m2.p.mc * m2.p.d = 0 := hp ▸ hcd
  have hv : m1.vdot tau = m2.vdot tau := by
    unfold DDMRModel.vdot
    rw [hp, hcd2]
    simp
  have hwd : m1.wdot tau = m2.wdot tau := by
    unfold DDMRModel.wdot
    rw [hp, hcd2]
    simp
  refine ⟨fun hl => ⟨hv, ?_, ?_⟩, fun ha => ⟨hwd, ?_, ?_⟩⟩ <;>
    simp [DDMRModel.observe, Integrator.add, Integrator.get, *]

/-- Concrete decoupled model: parameters with `mc·d = 0`, zero linear
velocity. -/
def M7a : DDMRModel :=
  { p := { R := 1, m := 2, mc := 0, d := 3, L := 1, I := 2, Iw := 1 }
    linv := Integrator.new 1 0
    angv := Integrator.new 1 5 }

/-- `M7a` with a different angular velocity. -/
def M7b : DDMRModel :=
  { p := { R := 1, m := 2, mc := 0, d := 3, L := 1, I := 2, Iw := 1 }
    linv := Integrator.new 1 0
    angv := Integrator.new 1 9 }

/-- C7 witness: two models sharing parameters with `mc·d = 0` and the same
linear integrator but different angular velocities. -/
theorem DDMRModel.decoupled_channels_witness :
    M7a.p = M7b.p ∧ M7a.p.mc * M7a.p.d = 0
      ∧ ((M7a.linv = M7b.linv →
            M7a.vdot ⟨2, 3⟩ = M7b.vdot ⟨2, 3⟩
              ∧ (M7a.observe ⟨2, 3⟩).2.lin = (M7b.observe ⟨2, 3⟩).2.lin
              ∧ (M7a.observe ⟨2, 3⟩).1.linv = (M7b.observe ⟨2, 3⟩).1.linv)
        ∧ (M7a.angv = M7b.angv →
            M7a.wdot ⟨2, 3⟩ = M7b.wdot ⟨2, 3⟩
              ∧ (M7a.observe ⟨2, 3⟩).2.ang = (M7b.observe ⟨2, 3⟩).2.ang
              ∧ (M7a.observe ⟨2, 3⟩).1.angv = (M7b.observe ⟨2, 3⟩).1.angv)) :=
  ⟨by norm_num [M7a, M7b], by norm_num [M7a],
    DDMRModel.decoupled_channels M7a M7b ⟨2, 3⟩
      (by norm_num [M7a, M7b]) (by norm_num [M7a])⟩

/-- C8: with `d = 0` and equal left/right torque, the computed angular
acceleration of `observe` is zero, so the angular-velocity integrator is
unchanged by the step and the returned angular velocity equals the
pre-update one; as this holds for every state, it holds at every step of
every such sequence. -/
theorem DDMRModel.straight_line (md : DDMRModel) (tau : LR ℚ)
    (hd : md.p.d = 0) (heq : tau.l = tau.r) :
    md.wdot tau = 0
      ∧ (md.observe tau).1.angv = md.angv
      ∧ (md.observe tau).2.ang = md.angv.get := by
  have hw : md.wdot tau = 0 := by
    unfold DDMRModel.wdot
    rw [heq, hd]
    simp
  refine ⟨hw, ?_, ?_⟩
  · simp [DDMRModel.observe, Integrator.add, hw]
  · simp [DDMRModel.observe, Integrator.add, Integrator.get, hw]

/-- Concrete model with the center of mass on the wheel axis (`d = 0`). -/
def M8 : DDMRModel :=
  { p := { R := 1, m := 2, mc := 1, d := 0, L := 1, I := 2, Iw := 1 }
    linv := Integrator.new 1 4
    angv := Integrator.new 1 5 }

/-- C8 witness: equal torques on `M8`. -/
theorem DDMRModel.straight_line_witness :
    M8.p.d = 0 ∧ (LR.mk (7 : ℚ) 7).l = (LR.mk (7 : ℚ) 7).r
      ∧ (M8.wdot ⟨7, 7⟩ = 0
        ∧ (M8.observe ⟨7, 7⟩).1.angv = M8.angv
        ∧ (M8.observe ⟨7, 7⟩).2.ang = M8.angv.get) :=
  ⟨by norm_num [M8], rfl,
    DDMRModel.straight_line M8 ⟨7, 7⟩ (by norm_num [M8]) rfl⟩

/-- C9: the read accessors `vel` and `wheels` are side-effect-free: in the
state-passing translation they return the model unchanged, their results
are determined by the current integrator state and parameters, and running
`observe` on the model left behind by an accessor call is the same as
running it on the original model. -/
theorem DDMRModel.accessors_side_effect_free (md : DDMRModel) (tau : LR ℚ) :
    md.velCall.2 = md
      ∧ md.wheelsCall.2 = md
      ∧ md.velCall.1 = { lin := md.linv.get, ang := md.angv.get }
      ∧ md.wheelsCall.1 = md.vels_to_wheel md.vel
      ∧ md.velCall.2.observe tau = md.observe tau
      ∧ md.wheelsCall.2.observe tau = md.observe tau :=
  ⟨rfl, rfl, rfl, rfl, rfl, rfl⟩

/-- A freshly constructed actuated model computes zero armature current from
zero voltage. -/
theorem ActuatedDDMRModel.fresh_currents_zero (dt : ℚ) (dp : DDMRParams)
    (mp : DCMotorParams) :
    (ActuatedDDMRModel.new dt dp mp).currents zeroLR = { l := 0, r := 0 } := by
  simp [ActuatedDDMRModel.currents, ActuatedDDMRModel.new, DDMRModel.new,
    DDMRModel.wheels, DDMRModel.vel, DDMRModel.vels_to_wheel, Integrator.new,
    Integrator.get, Differentiator.new, Differentiator.get, zeroLR]

/-- A fresh drivetrain stepped with zero torque on both sides is unchanged
and reports zero velocities. -/
theorem DDMRModel.fresh_zero_torque_step (dt : ℚ) (dp : DDMRParams) :
    (DDMRModel.new dt dp).observe { l := (0 : ℚ), r := 0 }
      = (DDMRModel.new dt dp, { lin := 0, ang := 0 }) := by
  have hv : (DDMRModel.new dt dp).vdot { l := (0 : ℚ), r := 0 } = 0 := by
    simp [DDMRModel.vdot, DDMRModel.new, Integrator.new, Integrator.get]
  have hw : (DDMRModel.new dt dp).wdot { l := (0 : ℚ), r := 0 } = 0 := by
    simp [DDMRModel.wdot, DDMRModel.new, Integrator.new, Integrator.get]
  have hl : (DDMRModel.new dt dp).linv = Integrator.new dt 0 := rfl
  have ha : (DDMRModel.new dt dp).angv = Integrator.new dt 0 := rfl
  have hadd : (Integrator.new dt 0).add 0 = (Integrator.new dt 0, 0) := by
    simp [Integrator.new, Integrator.add, Integrator.get]
  simp only [DDMRModel.observe, hv, hw, hl, ha, hadd]
  rfl

/-- One `observe` with zero voltage leaves a fresh actuated model unchanged
and returns zero velocities. -/
theorem ActuatedDDMRModel.fresh_zero_step (dt : ℚ) (dp : DDMRParams)
    (mp : DCMotorParams) :
    (ActuatedDDMRModel.new dt dp mp).observe zeroLR
      = (ActuatedDDMRModel.new dt dp mp, { lin := 0, ang := 0 }) := by
  have hc := ActuatedDDMRModel.fresh_currents_zero dt dp mp
  have h1 : (ActuatedDDMRModel.new dt dp mp).ddmr = DDMRModel.new dt dp := rfl
  have h2 : (ActuatedDDMRModel.new dt dp mp).di
      = { l := Differentiator.new dt 0, r := Differentiator.new dt 0 } := rfl
  have h3 : (ActuatedDDMRModel.new dt dp mp).p = mp := rfl
  have h4 : (Differentiator.new dt 0).add 0 = (Differentiator.new dt 0, 0) := by
    simp [Differentiator.new, Differentiator.add, Differentiator.get]
  simp only [ActuatedDDMRModel.observe, hc, h1, h2, h3, zero_mul,
    DDMRModel.fresh_zero_torque_step, h4]
  rfl

/-- Any number of zero-voltage steps leaves a fresh actuated model
unchanged. -/
theorem ActuatedDDMRModel.fresh_steps_fixed (dt : ℚ) (dp : DDMRParams)
    (mp : DCMotorParams) (n : Nat) :
    (ActuatedDDMRModel.new dt dp mp).steps zeroLR n
      = ActuatedDDMRModel.new dt dp mp := by
  induction n with
  | zero => rfl
  | succ k ih =>
      simp [ActuatedDDMRModel.steps, ih, ActuatedDDMRModel.fresh_zero_step]

/-- C3: starting from `ActuatedDDMRModel::new` (zero velocity, zero-seeded
current history) and applying `observe` with zero voltage any number of
times, the model state is unchanged, the computed armature currents are zero,
both torques `i·Kt` are zero, and every step returns zero linear and angular
velocity — the all-zero state is a fixed point (stated with the claim's
provisos that the armature resistance and both acceleration-equation
denominators are nonzero). -/
theorem ActuatedDDMRModel.zero_voltage_fixed_point (dt : ℚ) (dp : DDMRParams)
    (mp : DCMotorParams) (n : Nat) (hRa : mp.Ra ≠ 0)
    (hden1 : dp.m + 2 * dp.Iw / dp.R / dp.R ≠ 0)
    (hden2 : dp.I + 2 * dp.L * dp.L * dp.Iw / dp.R / dp.R ≠ 0) :
    (ActuatedDDMRModel.new dt dp mp).steps zeroLR n
        = ActuatedDDMRModel.new dt dp mp
      ∧ ((ActuatedDDMRModel.new dt dp mp).steps zeroLR n).currents zeroLR
        = { l := 0, r := 0 }
      ∧ (((ActuatedDDMRModel.new dt dp mp).steps zeroLR n).currents zeroLR).l
          * mp.Kt = 0
      ∧ (((ActuatedDDMRModel.new dt dp mp).steps zeroLR n).currents zeroLR).r
          * mp.Kt = 0
      ∧ (((ActuatedDDMRModel.new dt dp mp).steps zeroLR n).observe zeroLR).2
        = { lin := 0, ang := 0 } := by
  have hs := ActuatedDDMRModel.fresh_steps_fixed dt dp mp n
  have hc := ActuatedDDMRModel.fresh_currents_zero dt dp mp
  have hz := ActuatedDDMRModel.fresh_zero_step dt dp mp
  refine ⟨hs, ?_, ?_, ?_, ?_⟩ <;> rw [hs] <;> simp [hc, hz]

/-- Concrete drivetrain parameters with nonzero denominators. -/
def DP3 : DDMRParams :=
  { R := 1, m := 2, mc := 1, d := 1, L := 1, I := 2, Iw := 1 }

/-- Concrete motor parameters with nonzero armature resistance. -/
def MP3 : DCMotorParams :=
  { Ra := 3, La := 1, N := 10, Kb := 1, Kt := 2 }

/-- C3 witness: the fixed point at `dt = 1/200`, `DP3`, `MP3` after three
steps. -/
theorem ActuatedDDMRModel.zero_voltage_fixed_point_witness :
    MP3.Ra ≠ 0
      ∧ DP3.m + 2 * DP3.Iw / DP3.R / DP3.R ≠ 0
      ∧ DP3.I + 2 * DP3.L * DP3.L * DP3.Iw / DP3.R / DP3.R ≠ 0
      ∧ ((ActuatedDDMRModel.new (1/200) DP3 MP3).steps zeroLR 3
            = ActuatedDDMRModel.new (1/200) DP3 MP3
        ∧ ((ActuatedDDMRModel.new (1/200) DP3 MP3).steps zeroLR 3).currents
            zeroLR = { l := 0, r := 0 }
        ∧ (((ActuatedDDMRModel.new (1/200) DP3 MP3).steps zeroLR 3).currents
            zeroLR).l * MP3.Kt = 0
        ∧ (((ActuatedDDMRModel.new (1/200) DP3 MP3).steps zeroLR 3).currents
            zeroLR).r * MP3.Kt = 0
        ∧ (((ActuatedDDMRModel.new (1/200) DP3 MP3).steps zeroLR 3).observe
            zeroLR).2 = { lin := 0, ang := 0 }) :=
  ⟨by norm_num [MP3], by norm_num [DP3], by norm_num [DP3],
    ActuatedDDMRModel.zero_voltage_fixed_point (1/200) DP3 MP3 3
      (by norm_num [MP3]) (by norm_num [DP3]) (by norm_num [DP3])⟩
